import Mathlib

/-!
# Verification of the Quiz-Generator core (app.py, generator.py)

A shallow embedding of the answer-normalization / scoring engine of
`app.py` and of the MCQ generation / validation / fallback pipeline of
`generator.py`, together with proofs of the specification's claims about
them.

Python strings are modelled as `List Char`; the external LLM service is
modelled as an oracle mapping each attempt number to its outcome.
-/

namespace QuizGen

/-- Python strings, modelled as lists of characters. -/
abbrev PyStr := List Char

/-- Coerce a Lean string literal to the `PyStr` model. -/
def toPy (s : String) : PyStr := s.data

/-- Whitespace characters recognised by Python's `str.strip` and by the
regex class `\s` (ASCII range, which is all the repository ever produces). -/
def isSpace (c : Char) : Bool :=
  c = ' ' || c = '\t' || c = '\n' || c = '\r' || c = '\x0b' || c = '\x0c'

/-- ASCII lowercasing of one character, as Python's `str.lower` acts on the
ASCII range used by this repository. -/
def lowerChar (c : Char) : Char :=
  if c = 'A' then 'a' else if c = 'B' then 'b' else if c = 'C' then 'c'
  else if c = 'D' then 'd' else if c = 'E' then 'e' else if c = 'F' then 'f'
  else if c = 'G' then 'g' else if c = 'H' then 'h' else if c = 'I' then 'i'
  else if c = 'J' then 'j' else if c = 'K' then 'k' else if c = 'L' then 'l'
  else if c = 'M' then 'm' else if c = 'N' then 'n' else if c = 'O' then 'o'
  else if c = 'P' then 'p' else if c = 'Q' then 'q' else if c = 'R' then 'r'
  else if c = 'S' then 's' else if c = 'T' then 't' else if c = 'U' then 'u'
  else if c = 'V' then 'v' else if c = 'W' then 'w' else if c = 'X' then 'x'
  else if c = 'Y' then 'y' else if c = 'Z' then 'z' else c

/-- Python `s.lower()`. -/
def pyLower (s : PyStr) : PyStr := s.map lowerChar

/-- Python `s.strip()`: drop leading and trailing whitespace. -/
def pyStrip (s : PyStr) : PyStr :=
  ((s.dropWhile isSpace).reverse.dropWhile isSpace).reverse

/-- Python `re.sub(r'\s+', ' ', s)`: replace every maximal run of whitespace
by a single space.  The boolean flag records whether the scanner is inside a
whitespace run whose single replacement space was already emitted. -/
def collapseAux : Bool → PyStr → PyStr
  | _, [] => []
  | true, c :: cs =>
    if isSpace c then collapseAux true cs else c :: collapseAux false cs
  | false, c :: cs =>
    if isSpace c then ' ' :: collapseAux true cs else c :: collapseAux false cs

/-- Python `re.sub(r'\s+', ' ', s)`. -/
def collapseWs (s : PyStr) : PyStr := collapseAux false s

/-- `app.py::normalize_answer`.  The argument is `none` when the submitted
form field was missing (Python `None`). -/
def normalize_answer (answer : Option PyStr) : PyStr :=
  match answer with
  | none => []
  | some s => if s = [] then [] else collapseWs (pyLower (pyStrip s))

/-- The normalization rule as worded in the specification (§4.2): treat
missing/empty/null input as the empty string, convert to lower case, trim
leading/trailing whitespace, collapse runs of whitespace to one space. -/
def normalizeSpec (answer : Option PyStr) : PyStr :=
  match answer with
  | none => []
  | some s => collapseWs (pyStrip (pyLower s))

/-! ## Scoring engine data model (`app.py`) -/

/-- One stored question of `quiz.questions` (the JSON dicts written by
`create_quiz`). -/
structure StoredQuestion where
  question : PyStr
  options : List PyStr
  correct_answer : PyStr
deriving DecidableEq

/-- One entry of the `answers` breakdown built by `take_quiz`. -/
structure AnswerRecord where
  question : PyStr
  user_answer : Option PyStr
  correct_answer : PyStr
  is_correct : Bool
deriving DecidableEq

/-- The `QuizAttempt` data produced by the POST branch of `take_quiz`. -/
structure AttemptResult where
  score : Nat
  total_questions : Nat
  answers : List AnswerRecord
deriving DecidableEq

/-- Record built for question `q` at loop index `i` inside `take_quiz`:
`is_correct` is normalized-string equality of submitted and correct answer. -/
def answerRecordFor (form : Nat → Option PyStr) (i : Nat) (q : StoredQuestion) :
    AnswerRecord :=
  { question := q.question
    user_answer := form i
    correct_answer := q.correct_answer
    is_correct := decide (normalize_answer (form i) =
      normalize_answer (some q.correct_answer)) }

/-- The `for i, question in enumerate(quiz.questions)` loop of `take_quiz`
starting at index `i`; `form j` models `request.form.get('question_j')`. -/
def scoreLoop (form : Nat → Option PyStr) : Nat → List StoredQuestion → List AnswerRecord
  | _, [] => []
  | i, q :: qs => answerRecordFor form i q :: scoreLoop form (i + 1) qs

/-- The scoring performed by the POST branch of `app.py::take_quiz`. -/
def takeQuizScore (questions : List StoredQuestion) (form : Nat → Option PyStr) :
    AttemptResult :=
  { score := (scoreLoop form 0 questions).countP (fun a => a.is_correct)
    total_questions := questions.length
    answers := scoreLoop form 0 questions }

/-- `app.py::quiz_results`: `percentage = (score / total_questions) * 100`.
`none` models the `ZeroDivisionError` raised when `total_questions = 0`. -/
def quizResultsPercentage (attempt : AttemptResult) : Option ℚ :=
  if attempt.total_questions = 0 then none
  else some ((attempt.score : ℚ) / (attempt.total_questions : ℚ) * 100)

/-! ## Question generator data model (`generator.py`) -/

/-- `generator.py::MCQQuestion` (pydantic model). -/
structure MCQQuestion where
  question : PyStr
  options : List PyStr
  correct_answer : PyStr
deriving DecidableEq

/-- Construction of an `MCQQuestion`, running the pydantic field validators:
`clean_question` strips the text, `clean_options` keeps the truthy
(non-empty) entries and strips each, `clean_correct_answer` strips. -/
def mkMCQQuestion (question : PyStr) (options : List PyStr) (correct : PyStr) :
    MCQQuestion :=
  { question := pyStrip question
    options := (options.filter (fun o => decide (o ≠ []))).map pyStrip
    correct_answer := pyStrip correct }

/-- What one external generation attempt yields, as seen by `generate_mcq`
after `_get_response_text` and `_extract_json`: either an exception anywhere
before a parsed record (empty response, malformed JSON, missing keys,
pydantic rejection), or the three parsed fields. -/
inductive AttemptOutcome where
  | failure
  | parsed (question : PyStr) (options : List PyStr) (correct : PyStr)

/-- The validation performed on a parsed response inside the retry loop of
`generate_mcq` (lines 198-226): pydantic construction, the option-count
check, the case-insensitive reconciliation of `correct_answer` against
`options` (with the canonical casing substituted back, and Python's falsy
test on the match), and the duplicate-option check.  `none` models an
exception caught by the loop. -/
def validateParsed (rq : PyStr) (ropts : List PyStr) (rc : PyStr) :
    Option MCQQuestion :=
  if (mkMCQQuestion rq ropts rc).options.length ≠ 4 then none
  else
    match (mkMCQQuestion rq ropts rc).options.find?
        (fun o => decide (pyStrip (pyLower o) =
          pyStrip (pyLower (mkMCQQuestion rq ropts rc).correct_answer))) with
    | none => none
    | some m =>
      if m = [] then none
      else if (((mkMCQQuestion rq ropts rc).options.map
          (fun o => pyStrip (pyLower o))).dedup).length ≠ 4 then none
      else some { mkMCQQuestion rq ropts rc with correct_answer := m }

/-- One iteration of the retry loop: `none` when the attempt raised. -/
def tryAttempt : AttemptOutcome → Option MCQQuestion
  | .failure => none
  | .parsed rq ropts rc => validateParsed rq ropts rc

/-- The retry loop of `generate_mcq`, trying attempts `start`,
`start + 1`, ... while fuel lasts; on success it returns the question and
the number of external calls made so far. -/
def attemptFrom (responses : Nat → AttemptOutcome) : Nat → Nat → Option (MCQQuestion × Nat)
  | _, 0 => none
  | start, fuel + 1 =>
    match tryAttempt (responses start) with
    | some q => some (q, start + 1)
    | none => attemptFrom responses (start + 1) fuel

/-- `difficulty = difficulty.lower()`, coerced to `'medium'` when not one of
the three known values (lines 151-153 of `generator.py`). -/
def canonDifficulty (difficulty : PyStr) : PyStr :=
  let d := pyLower difficulty
  if d = toPy "easy" ∨ d = toPy "medium" ∨ d = toPy "hard" then d
  else toPy "medium"

/-- The tail of the prompt template of `generate_mcq` (constant part). -/
def mcqPromptTail : PyStr :=
  toPy ".\n\nOutput ONLY a valid JSON object with no additional text, markdown, or explanations.\nUse this EXACT structure:\n\n\x7b\n  \"question\": \"Your question text here?\",\n  \"options\": [\"Option A\", \"Option B\", \"Option C\", \"Option D\"],\n  \"correct_answer\": \"Option A\"\n\x7d\n\nRequirements:\n- Provide exactly 4 distinct options\n- The correct_answer must match one of the options exactly\n- Keep all text simple and avoid special characters\n- Do not include any text before or after the JSON\n"

/-- The full prompt sent on every attempt of `generate_mcq`. -/
def mcqPrompt (topic difficulty : PyStr) : PyStr :=
  toPy "Create a " ++ difficulty ++ toPy " multiple-choice question about " ++
    topic ++ mcqPromptTail

/-- `difficulty_desc` lookup inside `_create_fallback_mcq`. -/
def difficultyDesc (difficulty : PyStr) : PyStr :=
  if difficulty = toPy "easy" then toPy "basic"
  else if difficulty = toPy "medium" then toPy "intermediate"
  else if difficulty = toPy "hard" then toPy "advanced"
  else toPy "general"

/-- `generator.py::QuestionGenerator._create_fallback_mcq`. -/
def create_fallback_mcq (topic difficulty : PyStr) : MCQQuestion :=
  mkMCQQuestion
    (toPy "Which of the following best describes a " ++ difficultyDesc difficulty ++
      toPy " aspect of " ++ topic ++ toPy "?")
    [toPy "Fundamental concepts of " ++ topic,
      toPy "Advanced theories in mathematics",
      toPy "Historical events in ancient Rome",
      toPy "Chemical properties of water"]
    (toPy "Fundamental concepts of " ++ topic)

/-- Observable side effects of one `generate_mcq` call: how often the rate
limiter ran, how many external calls were made, and the prompt used (if the
external phase was reached). -/
structure GenTrace where
  rateLimitCalls : Nat
  externalCalls : Nat
  prompt : Option PyStr
deriving DecidableEq

/-- `generator.py::QuestionGenerator.generate_mcq`.  `responses` is the
external-service oracle giving the outcome of each attempt.  The `Except`
error is the `ValueError('Topic cannot be empty')` raised to the caller;
every other failure is absorbed by the retry loop and the fallback. -/
def generate_mcq (topic difficulty : PyStr) (responses : Nat → AttemptOutcome) :
    Except PyStr MCQQuestion × GenTrace :=
  if pyStrip topic = [] then
    (Except.error (toPy "Topic cannot be empty"),
      { rateLimitCalls := 0, externalCalls := 0, prompt := none })
  else
    match attemptFrom responses 0 3 with
    | some (q, calls) =>
      (Except.ok q,
        { rateLimitCalls := 1, externalCalls := calls,
          prompt := some (mcqPrompt topic (canonDifficulty difficulty)) })
    | none =>
      (Except.ok (create_fallback_mcq topic (canonDifficulty difficulty)),
        { rateLimitCalls := 1, externalCalls := 3,
          prompt := some (mcqPrompt topic (canonDifficulty difficulty)) })

/-! ## Display-time option shuffling (`take_quiz`, GET branch) -/

/-- The heap of Python list objects holding each quiz question's options;
a reference is an index into this heap. -/
abbrev Heap := List (List PyStr)

/-- A stored question whose `options` entry is a reference to a heap cell,
mirroring Python's aliasing of list objects. -/
structure StoredQuestionRef where
  question : PyStr
  optionsRef : Nat
  correct_answer : PyStr
deriving DecidableEq

/-- One iteration of the display loop of `take_quiz` for a single stored
question: `q_copy = question.copy()` is a shallow copy, so it shares the
options reference; with shuffling on, `options_copy = q_copy['options'].copy()`
allocates a fresh heap cell, `random.shuffle(options_copy)` permutes that
cell in place (`perm` is the permutation `random.shuffle` happens to apply),
and `q_copy['options'] = options_copy` re-points the copy at the fresh cell. -/
def displayOne (shuffle : Bool) (perm : List PyStr → List PyStr) (h : Heap)
    (q : StoredQuestionRef) : Heap × StoredQuestionRef :=
  if shuffle then
    let newRef := h.length
    let h1 := h ++ [h.getD q.optionsRef []]
    let h2 := h1.set newRef (perm (h1.getD newRef []))
    (h2, { q with optionsRef := newRef })
  else (h, q)

/-- The whole display loop of `take_quiz` (GET branch), building
`display_questions` from `quiz.questions` starting at position `i`. -/
def displayQuestions (shuffle : Bool) (perm : Nat → List PyStr → List PyStr) :
    Heap → Nat → List StoredQuestionRef → Heap × List StoredQuestionRef
  | h, _, [] => (h, [])
  | h, i, q :: qs =>
    let r1 := displayOne shuffle (perm i) h q
    let rest := displayQuestions shuffle perm r1.1 (i + 1) qs
    (rest.1, r1.2 :: rest.2)

/-! ## Character-level helper facts -/

theorem lowerChar_eq_self (c : Char)
    (h1 : ¬c = 'A') (h2 : ¬c = 'B') (h3 : ¬c = 'C') (h4 : ¬c = 'D') (h5 : ¬c = 'E') (h6 : ¬c = 'F') (h7 : ¬c = 'G') (h8 : ¬c = 'H') (h9 : ¬c = 'I') (h10 : ¬c = 'J') (h11 : ¬c = 'K') (h12 : ¬c = 'L') (h13 : ¬c = 'M') (h14 : ¬c = 'N') (h15 : ¬c = 'O') (h16 : ¬c = 'P') (h17 : ¬c = 'Q') (h18 : ¬c = 'R') (h19 : ¬c = 'S') (h20 : ¬c = 'T') (h21 : ¬c = 'U') (h22 : ¬c = 'V') (h23 : ¬c = 'W') (h24 : ¬c = 'X') (h25 : ¬c = 'Y') (h26 : ¬c = 'Z') :
    lowerChar c = c := by
  unfold lowerChar
  rw [if_neg h1, if_neg h2, if_neg h3, if_neg h4, if_neg h5, if_neg h6, if_neg h7, if_neg h8, if_neg h9, if_neg h10, if_neg h11, if_neg h12, if_neg h13, if_neg h14, if_neg h15, if_neg h16, if_neg h17, if_neg h18, if_neg h19, if_neg h20, if_neg h21, if_neg h22, if_neg h23, if_neg h24, if_neg h25, if_neg h26]

/-- ASCII lowercasing is idempotent and preserves whitespace-ness. -/
theorem lowerChar_props (c : Char) :
    lowerChar (lowerChar c) = lowerChar c ∧ isSpace (lowerChar c) = isSpace c := by
  by_cases h1 : c = 'A'
  · subst h1; exact ⟨by decide, by decide⟩
  by_cases h2 : c = 'B'
  · subst h2; exact ⟨by decide, by decide⟩
  by_cases h3 : c = 'C'
  · subst h3; exact ⟨by decide, by decide⟩
  by_cases h4 : c = 'D'
  · subst h4; exact ⟨by decide, by decide⟩
  by_cases h5 : c = 'E'
  · subst h5; exact ⟨by decide, by decide⟩
  by_cases h6 : c = 'F'
  · subst h6; exact ⟨by decide, by decide⟩
  by_cases h7 : c = 'G'
  · subst h7; exact ⟨by decide, by decide⟩
  by_cases h8 : c = 'H'
  · subst h8; exact ⟨by decide, by decide⟩
  by_cases h9 : c = 'I'
  · subst h9; exact ⟨by decide, by decide⟩
  by_cases h10 : c = 'J'
  · subst h10; exact ⟨by decide, by decide⟩
  by_cases h11 : c = 'K'
  · subst h11; exact ⟨by decide, by decide⟩
  by_cases h12 : c = 'L'
  · subst h12; exact ⟨by decide, by decide⟩
  by_cases h13 : c = 'M'
  · subst h13; exact ⟨by decide, by decide⟩
  by_cases h14 : c = 'N'
  · subst h14; exact ⟨by decide, by decide⟩
  by_cases h15 : c = 'O'
  · subst h15; exact ⟨by decide, by decide⟩
  by_cases h16 : c = 'P'
  · subst h16; exact ⟨by decide, by decide⟩
  by_cases h17 : c = 'Q'
  · subst h17; exact ⟨by decide, by decide⟩
  by_cases h18 : c = 'R'
  · subst h18; exact ⟨by decide, by decide⟩
  by_cases h19 : c = 'S'
  · subst h19; exact ⟨by decide, by decide⟩
  by_cases h20 : c = 'T'
  · subst h20; exact ⟨by decide, by decide⟩
  by_cases h21 : c = 'U'
  · subst h21; exact ⟨by decide, by decide⟩
  by_cases h22 : c = 'V'
  · subst h22; exact ⟨by decide, by decide⟩
  by_cases h23 : c = 'W'
  · subst h23; exact ⟨by decide, by decide⟩
  by_cases h24 : c = 'X'
  · subst h24; exact ⟨by decide, by decide⟩
  by_cases h25 : c = 'Y'
  · subst h25; exact ⟨by decide, by decide⟩
  by_cases h26 : c = 'Z'
  · subst h26; exact ⟨by decide, by decide⟩
  have he := lowerChar_eq_self c h1 h2 h3 h4 h5 h6 h7 h8 h9 h10 h11 h12 h13 h14 h15 h16 h17 h18 h19 h20 h21 h22 h23 h24 h25 h26
  rw [he]
  exact ⟨he, rfl⟩

theorem isSpace_lowerChar (c : Char) : isSpace (lowerChar c) = isSpace c :=
  (lowerChar_props c).2

theorem pyLower_idem (s : PyStr) : pyLower (pyLower s) = pyLower s := by
  unfold pyLower
  rw [List.map_map]
  exact List.map_congr_left fun c _ => (lowerChar_props c).1

/-! ## `dropWhile` helper facts -/

/-- `dropWhile` never leaves a head that satisfies the predicate. -/
theorem head?_dropWhile (p : Char → Bool) (l : PyStr) :
    ∀ c, (l.dropWhile p).head? = some c → p c = false := by
  induction l with
  | nil => intro c h; simp at h
  | cons d ds ih =>
    intro c h
    by_cases hd : p d
    · rw [List.dropWhile_cons, if_pos hd] at h
      exact ih c h
    · rw [List.dropWhile_cons, if_neg hd] at h
      simp only [List.head?_cons, Option.some.injEq] at h
      rw [← h]
      simpa using hd

/-- If the head does not satisfy the predicate, `dropWhile` is the identity. -/
theorem dropWhile_eq_self (p : Char → Bool) (l : PyStr)
    (h : ∀ c, l.head? = some c → p c = false) : l.dropWhile p = l := by
  cases l with
  | nil => rfl
  | cons c cs => rw [List.dropWhile_cons, if_neg (by simp [h c rfl])]

/-- A non-empty `dropWhile` keeps the last element of the original list. -/
theorem getLast?_dropWhile (p : Char → Bool) (l : PyStr)
    (h : l.dropWhile p ≠ []) : (l.dropWhile p).getLast? = l.getLast? := by
  induction l with
  | nil => simp at h
  | cons c cs ih =>
    by_cases hc : p c
    · have hcs : cs.dropWhile p ≠ [] := by simpa [List.dropWhile_cons, hc] using h
      have hne : cs ≠ [] := fun he => by simp [he] at hcs
      rw [List.dropWhile_cons, if_pos hc, ih hcs]
      cases cs with
      | nil => exact absurd rfl hne
      | cons d ds => rw [List.getLast?_cons_cons]
    · rw [List.dropWhile_cons, if_neg hc]

theorem dropWhile_map_lower (l : PyStr) :
    (l.map lowerChar).dropWhile isSpace = (l.dropWhile isSpace).map lowerChar := by
  induction l with
  | nil => rfl
  | cons c cs ih =>
    by_cases h : isSpace c
    · simp [List.dropWhile_cons, isSpace_lowerChar, h, ih]
    · simp [List.dropWhile_cons, isSpace_lowerChar, h]

theorem getLast?_map_lower (l : PyStr) :
    (l.map lowerChar).getLast? = Option.map lowerChar l.getLast? := by
  rw [← List.head?_reverse, ← List.map_reverse, List.head?_map, List.head?_reverse]

/-! ## `pyStrip` structure -/

/-- The result of `pyStrip` never starts with whitespace. -/
theorem pyStrip_head? (s : PyStr) :
    ∀ c, (pyStrip s).head? = some c → isSpace c = false := by
  intro c h
  unfold pyStrip at h
  rw [List.head?_reverse] at h
  by_cases hw : (s.dropWhile isSpace).reverse.dropWhile isSpace = []
  · rw [hw] at h; simp at h
  · rw [getLast?_dropWhile _ _ hw, List.getLast?_reverse] at h
    exact head?_dropWhile isSpace s c h

/-- The result of `pyStrip` never ends with whitespace. -/
theorem pyStrip_getLast? (s : PyStr) :
    ∀ c, (pyStrip s).getLast? = some c → isSpace c = false := by
  intro c h
  unfold pyStrip at h
  rw [List.getLast?_reverse] at h
  exact head?_dropWhile isSpace _ c h

/-- A string without leading or trailing whitespace is fixed by `pyStrip`. -/
theorem pyStrip_eq_self (s : PyStr)
    (hh : ∀ c, s.head? = some c → isSpace c = false)
    (hl : ∀ c, s.getLast? = some c → isSpace c = false) : pyStrip s = s := by
  unfold pyStrip
  rw [dropWhile_eq_self _ _ hh,
    dropWhile_eq_self _ _ (fun c h => hl c (by rwa [List.head?_reverse] at h))]
  exact List.reverse_reverse s

/-- `pyStrip` commutes with `pyLower`. -/
theorem pyStrip_pyLower (s : PyStr) : pyStrip (pyLower s) = pyLower (pyStrip s) := by
  unfold pyStrip pyLower
  rw [dropWhile_map_lower, ← List.map_reverse, dropWhile_map_lower, ← List.map_reverse]

/-! ## `collapseAux` structure -/

theorem collapseAux_map_lower (u : PyStr) :
    ∀ b, (collapseAux b u).map lowerChar = collapseAux b (u.map lowerChar) := by
  induction u with
  | nil => intro b; cases b <;> rfl
  | cons c cs ih =>
    intro b
    have hsp : lowerChar ' ' = ' ' := by decide
    cases b <;> by_cases h : isSpace c <;>
      simp [collapseAux, h, isSpace_lowerChar, hsp, ih]

theorem collapseAux_idem (u : PyStr) :
    (∀ b, collapseAux false (collapseAux b u) = collapseAux b u) ∧
    collapseAux true (collapseAux true u) = collapseAux true u := by
  induction u with
  | nil => exact ⟨fun b => by cases b <;> rfl, rfl⟩
  | cons c cs ih =>
    obtain ⟨ihA, ihB⟩ := ih
    have hsp : isSpace ' ' = true := by decide
    constructor
    · intro b
      cases b <;> by_cases h : isSpace c
      · simpa [collapseAux, h, hsp] using ihB
      · simpa [collapseAux, h] using ihA false
      · simpa [collapseAux, h] using ihA true
      · simpa [collapseAux, h] using ihA false
    · by_cases h : isSpace c
      · simpa [collapseAux, h] using ihB
      · simpa [collapseAux, h] using ihA false

theorem collapseWs_idem (u : PyStr) : collapseWs (collapseWs u) = collapseWs u :=
  (collapseAux_idem u).1 false

/-- `collapseAux false` keeps a non-whitespace head in place. -/
theorem collapseAux_false_head (u : PyStr)
    (h : ∀ c, u.head? = some c → isSpace c = false) :
    ∀ c, (collapseAux false u).head? = some c → isSpace c = false := by
  cases u with
  | nil => intro c hc; simp [collapseAux] at hc
  | cons d ds =>
    intro c hc
    have hd := h d rfl
    rw [show collapseAux false (d :: ds) = d :: collapseAux false ds from by
      simp [collapseAux, hd]] at hc
    simp only [List.head?_cons, Option.some.injEq] at hc
    rw [← hc]
    exact hd

/-- `collapseAux` keeps a non-whitespace last character. -/
theorem collapseAux_last (u : PyStr) :
    ∀ b w e, u = w ++ [e] → isSpace e = false →
      ∃ w2 e2, collapseAux b u = w2 ++ [e2] ∧ isSpace e2 = false := by
  induction u with
  | nil =>
    intro b w e h _
    exact absurd h (by simp)
  | cons c cs ih =>
    intro b w e h he
    cases w with
    | nil =>
      simp only [List.nil_append, List.cons.injEq] at h
      obtain ⟨hc, hcs⟩ := h
      subst hc; subst hcs
      cases b <;> exact ⟨[], c, by simp [collapseAux, he], he⟩
    | cons x xs =>
      simp only [List.cons_append, List.cons.injEq] at h
      obtain ⟨hc, hcs⟩ := h
      subst hc
      cases b <;> by_cases hx : isSpace c
      · obtain ⟨w2, e2, hw2, he2⟩ := ih true xs e hcs he
        exact ⟨' ' :: w2, e2, by simp [collapseAux, hx, hw2], he2⟩
      · obtain ⟨w2, e2, hw2, he2⟩ := ih false xs e hcs he
        exact ⟨c :: w2, e2, by simp [collapseAux, hx, hw2], he2⟩
      · obtain ⟨w2, e2, hw2, he2⟩ := ih true xs e hcs he
        exact ⟨w2, e2, by simp [collapseAux, hx, hw2], he2⟩
      · obtain ⟨w2, e2, hw2, he2⟩ := ih false xs e hcs he
        exact ⟨c :: w2, e2, by simp [collapseAux, hx, hw2], he2⟩

/-! ## Normalization: main lemmas -/

/-- The code's normalization agrees with the specification's wording. -/
theorem normalize_answer_eq_spec (a : Option PyStr) :
    normalize_answer a = normalizeSpec a := by
  cases a with
  | none => rfl
  | some s =>
    by_cases hs : s = []
    · subst hs; rfl
    · show (if s = [] then [] else collapseWs (pyLower (pyStrip s))) =
        collapseWs (pyStrip (pyLower s))
      rw [if_neg hs, pyStrip_pyLower]

/-- `normalize_answer` output has no leading whitespace, no trailing
whitespace, is lower-case-stable and whitespace-run-free; hence applying
the code's pipeline to it again changes nothing. -/
theorem normalize_answer_idem (a : Option PyStr) :
    normalize_answer (some (normalize_answer a)) = normalize_answer a := by
  cases a with
  | none => rfl
  | some s =>
    by_cases hs : s = []
    · subst hs; rfl
    · have hval : normalize_answer (some s) = collapseWs (pyLower (pyStrip s)) := by
        show (if s = [] then [] else _) = _
        rw [if_neg hs]
      set u := pyLower (pyStrip s) with hu
      set t := collapseWs u with ht
      rw [hval]
      by_cases htn : t = []
      · rw [htn]; rfl
      · -- head and last of `u` are not whitespace
        have headU : ∀ c, u.head? = some c → isSpace c = false := by
          intro c hc
          rw [hu] at hc
          unfold pyLower at hc
          rw [List.head?_map] at hc
          cases hd : (pyStrip s).head? with
          | none => rw [hd] at hc; simp at hc
          | some d =>
            rw [hd] at hc
            have hdc : lowerChar d = c := by simpa using hc
            rw [← hdc, isSpace_lowerChar]
            exact pyStrip_head? s d hd
        have hun : u ≠ [] := by
          intro he
          rw [ht, he] at htn
          exact htn rfl
        obtain ⟨w, e, hwe⟩ : ∃ w e, u = w ++ [e] := by
          rcases List.eq_nil_or_concat u with h | ⟨w, e, h⟩
          · exact absurd h hun
          · exact ⟨w, e, by rw [h, List.concat_eq_append]⟩
        have lastU : isSpace e = false := by
          have hgl : u.getLast? = some e := by rw [hwe, List.getLast?_concat]
          rw [hu] at hgl
          unfold pyLower at hgl
          rw [getLast?_map_lower] at hgl
          cases hd : (pyStrip s).getLast? with
          | none => rw [hd] at hgl; simp at hgl
          | some d =>
            rw [hd] at hgl
            have hde : lowerChar d = e := by simpa using hgl
            rw [← hde, isSpace_lowerChar]
            exact pyStrip_getLast? s d hd
        -- head and last of `t` are not whitespace
        have headT : ∀ c, t.head? = some c → isSpace c = false := by
          rw [ht]
          exact collapseAux_false_head u headU
        obtain ⟨w2, e2, hw2, he2⟩ := collapseAux_last u false w e hwe lastU
        have lastT : ∀ c, t.getLast? = some c → isSpace c = false := by
          intro c hc
          have ht2 : t = w2 ++ [e2] := by rw [ht]; exact hw2
          rw [ht2, List.getLast?_concat] at hc
          simp only [Option.some.injEq] at hc
          rw [← hc]
          exact he2
        have hstrip : pyStrip t = t := pyStrip_eq_self t headT lastT
        have hlow : pyLower t = t := by
          rw [ht]
          show (collapseAux false u).map lowerChar = collapseAux false u
          rw [collapseAux_map_lower u false]
          have : u.map lowerChar = u := by
            rw [hu]
            exact pyLower_idem (pyStrip s)
          rw [this]
        have hcol : collapseWs t = t := by
          rw [ht]
          exact (collapseAux_idem u).1 false
        show (if t = [] then [] else collapseWs (pyLower (pyStrip t))) = t
        rw [if_neg htn, hstrip, hlow, hcol]

/-! ## Scoring engine lemmas -/

theorem scoreLoop_length (form : Nat → Option PyStr) (i : Nat)
    (qs : List StoredQuestion) : (scoreLoop form i qs).length = qs.length := by
  induction qs generalizing i with
  | nil => rfl
  | cons q qs ih => simp [scoreLoop, ih]

theorem scoreLoop_getElem? (form : Nat → Option PyStr) (qs : List StoredQuestion) :
    ∀ i j, (scoreLoop form i qs)[j]? = (qs[j]?).map (answerRecordFor form (i + j)) := by
  induction qs with
  | nil => intro i j; simp [scoreLoop]
  | cons q qs ih =>
    intro i j
    cases j with
    | zero => simp [scoreLoop]
    | succ j =>
      simp only [scoreLoop, List.getElem?_cons_succ]
      rw [ih (i + 1) j]
      have harith : i + 1 + j = i + (j + 1) := by omega
      rw [harith]

/-- Two submission maps with pointwise-equal normalizations produce the same
correctness flags and the same score. -/
theorem scoreLoop_is_correct_congr (form form2 : Nat → Option PyStr)
    (h : ∀ i, normalize_answer (form i) = normalize_answer (form2 i)) :
    ∀ i qs, ((scoreLoop form i qs).map (fun a => a.is_correct) =
        (scoreLoop form2 i qs).map (fun a => a.is_correct)) ∧
      (scoreLoop form i qs).countP (fun a => a.is_correct) =
        (scoreLoop form2 i qs).countP (fun a => a.is_correct) := by
  intro i qs
  induction qs generalizing i with
  | nil => exact ⟨rfl, rfl⟩
  | cons q qs ih =>
    obtain ⟨ih1, ih2⟩ := ih (i + 1)
    constructor
    · simp [scoreLoop, answerRecordFor, h i, ih1]
    · simp [scoreLoop, List.countP_cons, answerRecordFor, h i, ih2]

/-! ## Claim theorems: scoring and normalization -/

/-- **C1** — code bug.  A scoring request against an empty question set is
not rejected by the code: `take_quiz` builds the attempt with
`total_questions = 0` and `quiz_results` then reaches the percentage
computation, where the division by zero (modelled by `none`) occurs; no
validation error is signalled anywhere on this path. -/
theorem claim_C1_empty_quiz_division_reached (form : Nat → Option PyStr) :
    takeQuizScore [] form = { score := 0, total_questions := 0, answers := [] } ∧
    quizResultsPercentage (takeQuizScore [] form) = none :=
  ⟨rfl, rfl⟩

/-- **C3** — confirmed.  The code's `normalize_answer` implements exactly the
spec's rule (missing/empty/null to empty string, lowercase, trim, collapse
whitespace runs); correctness of a submission is exactly normalized-string
equality against the recorded correct answer; and for a question with
correct answer `"Paris"` and submission `"  PARIS  "` the verdict is
correct. -/
theorem claim_C3_normalization_and_correctness :
    (∀ a : Option PyStr, normalize_answer a = normalizeSpec a) ∧
    (∀ (qs : List StoredQuestion) (form : Nat → Option PyStr) (i : Nat),
      ((takeQuizScore qs form).answers[i]?).map (fun a => a.is_correct) =
        (qs[i]?).map (fun q => decide (normalize_answer (form i) =
          normalize_answer (some q.correct_answer)))) ∧
    (takeQuizScore
        [{ question := toPy "What is the capital of France?", options := [],
           correct_answer := toPy "Paris" }]
        (fun _ => some (toPy "  PARIS  "))).answers.map (fun a => a.is_correct) =
      [true] := by
  refine ⟨normalize_answer_eq_spec, ?_, by decide⟩
  intro qs form i
  show ((scoreLoop form 0 qs)[i]?).map (fun a => a.is_correct) = _
  rw [scoreLoop_getElem? form qs 0 i]
  cases h : qs[i]? with
  | none => rfl
  | some q => simp [answerRecordFor, Nat.zero_add]

/-- **C5** — confirmed.  `normalize_answer` is idempotent. -/
theorem claim_C5_normalize_idempotent (s : PyStr) :
    normalize_answer (some (normalize_answer (some s))) =
      normalize_answer (some s) :=
  normalize_answer_idem (some s)

/-- **C6** — confirmed.  `total_questions` is always the number of questions,
the per-question breakdown has exactly that length, and a missing submission
entry behaves exactly like an empty-string submission (same score, same
correctness flags) rather than raising; in particular a missing entry is
marked incorrect whenever the recorded correct answer does not itself
normalize to the empty string. -/
theorem claim_C6_totals_and_missing_entries (qs : List StoredQuestion)
    (form : Nat → Option PyStr) :
    (takeQuizScore qs form).total_questions = qs.length ∧
    (takeQuizScore qs form).answers.length = qs.length ∧
    (takeQuizScore qs form).score =
      (takeQuizScore qs (fun i => some ((form i).getD []))).score ∧
    (takeQuizScore qs form).answers.map (fun a => a.is_correct) =
      (takeQuizScore qs (fun i => some ((form i).getD []))).answers.map
        (fun a => a.is_correct) ∧
    (∀ i q, form i = none → qs[i]? = some q →
      normalize_answer (some q.correct_answer) ≠ [] →
      ((takeQuizScore qs form).answers[i]?).map (fun a => a.is_correct) =
        some false) := by
  have hpt : ∀ i, normalize_answer (form i) =
      normalize_answer (some ((form i).getD [])) := by
    intro i
    cases form i <;> rfl
  obtain ⟨hmap, hcount⟩ := scoreLoop_is_correct_congr form
    (fun i => some ((form i).getD [])) hpt 0 qs
  refine ⟨rfl, scoreLoop_length form 0 qs, hcount, hmap, ?_⟩
  intro i q hform hq hne
  show ((scoreLoop form 0 qs)[i]?).map (fun a => a.is_correct) = some false
  rw [scoreLoop_getElem? form qs 0 i, hq]
  have hzero : normalize_answer (form (0 + i)) = [] := by
    rw [Nat.zero_add, hform]
    rfl
  simp only [Option.map_some', answerRecordFor, hzero, Option.some.injEq,
    decide_eq_false_iff_not]
  exact fun hx => hne hx.symm

/-- Concrete instance discharging the hypotheses of
`claim_C6_totals_and_missing_entries`. -/
theorem claim_C6_witness :
    ((takeQuizScore [{ question := [], options := [],
                       correct_answer := toPy "Paris" }]
        (fun _ => none)).answers[0]?).map
      (fun a => a.is_correct) = some false :=
  (claim_C6_totals_and_missing_entries
      [{ question := [], options := [], correct_answer := toPy "Paris" }]
      (fun _ => none)).2.2.2.2 0
    { question := [], options := [], correct_answer := toPy "Paris" }
    rfl rfl (by decide)

/-! ## Generator lemmas -/

/-- A validated question has 4 options, pairwise distinct, and its
`correct_answer` is (case-sensitively) one of them. -/
theorem validateParsed_props (rq : PyStr) (ropts : List PyStr) (rc : PyStr)
    (q : MCQQuestion) (h : validateParsed rq ropts rc = some q) :
    q.options.length = 4 ∧ q.options.Nodup ∧ q.correct_answer ∈ q.options := by
  unfold validateParsed at h
  split at h
  · exact absurd h (by simp)
  next h4 =>
    split at h
    · exact absurd h (by simp)
    next m hm =>
      split at h
      · exact absurd h (by simp)
      next hmne =>
        split at h
        · exact absurd h (by simp)
        next hdup =>
          simp only [Option.some.injEq] at h
          subst h
          have hlen : (mkMCQQuestion rq ropts rc).options.length = 4 := by
            by_contra hc
            exact h4 hc
          refine ⟨hlen, ?_, ?_⟩
          · have hdup4 : ((mkMCQQuestion rq ropts rc).options.map
                (fun o => pyStrip (pyLower o))).dedup.length = 4 := by
              by_contra hc
              exact hdup hc
            have hdl : ((mkMCQQuestion rq ropts rc).options.map
                (fun o => pyStrip (pyLower o))).dedup.length =
                ((mkMCQQuestion rq ropts rc).options.map
                  (fun o => pyStrip (pyLower o))).length := by
              rw [hdup4, List.length_map, hlen]
            have hsub := List.dedup_sublist ((mkMCQQuestion rq ropts rc).options.map
              (fun o => pyStrip (pyLower o)))
            have heq := hsub.eq_of_length hdl
            have hnd : ((mkMCQQuestion rq ropts rc).options.map
                (fun o => pyStrip (pyLower o))).Nodup := by
              rw [← heq]
              exact List.nodup_dedup _
            exact List.Nodup.of_map _ hnd
          · exact List.mem_of_find?_eq_some hm

/-- A successful attempt sequence returns a question that some attempt
actually validated, after at most `start + fuel` calls. -/
theorem attemptFrom_success (responses : Nat → AttemptOutcome) :
    ∀ start fuel q n, attemptFrom responses start fuel = some (q, n) →
      n ≤ start + fuel ∧ ∃ i, tryAttempt (responses i) = some q := by
  intro start fuel
  induction fuel generalizing start with
  | zero => intro q n h; exact absurd h (by simp [attemptFrom])
  | succ fuel ih =>
    intro q n h
    unfold attemptFrom at h
    cases ht : tryAttempt (responses start) with
    | some q2 =>
      rw [ht] at h
      simp only [Option.some.injEq, Prod.mk.injEq] at h
      obtain ⟨hq, hn⟩ := h
      subst hq
      exact ⟨by omega, start, ht⟩
    | none =>
      rw [ht] at h
      obtain ⟨hle, i, hi⟩ := ih (start + 1) q n h
      exact ⟨by omega, i, hi⟩

/-- When the first three attempts all fail, the retry loop yields nothing. -/
theorem attemptFrom_all_fail (responses : Nat → AttemptOutcome)
    (h0 : tryAttempt (responses 0) = none) (h1 : tryAttempt (responses 1) = none)
    (h2 : tryAttempt (responses 2) = none) :
    attemptFrom responses 0 3 = none := by
  unfold attemptFrom
  rw [h0]
  unfold attemptFrom
  rw [h1]
  unfold attemptFrom
  rw [h2]
  rfl

/-- Stripping a string whose first character is not whitespace keeps that
first character in place. -/
theorem pyStrip_cons_not_space (c : Char) (hns : isSpace c = false) (l : PyStr) :
    ∃ ys, pyStrip (c :: l) = c :: ys := by
  unfold pyStrip
  rw [List.dropWhile_cons, if_neg (by simp [hns])]
  rw [show (c :: l).reverse = l.reverse ++ [c] from by simp]
  rw [List.dropWhile_append]
  by_cases he : (l.reverse.dropWhile isSpace).isEmpty = true
  · rw [if_pos he]
    rw [show List.dropWhile isSpace [c] = [c] from by
      rw [List.dropWhile_cons, if_neg (by simp [hns])]]
    exact ⟨[], rfl⟩
  · rw [if_neg he]
    exact ⟨(l.reverse.dropWhile isSpace).reverse, by simp⟩

theorem ne_of_head (c d : Char) (hcd : c ≠ d) (xs ys : PyStr) :
    c :: xs ≠ d :: ys := by
  intro h
  injection h with h1 _
  exact hcd h1

/-- The fallback question satisfies the MCQ invariants for every topic. -/
theorem fallback_props (topic d : PyStr) :
    (create_fallback_mcq topic d).options.length = 4 ∧
    (create_fallback_mcq topic d).options.Nodup ∧
    (create_fallback_mcq topic d).correct_answer ∈ (create_fallback_mcq topic d).options := by
  have hFsplit : toPy "Fundamental concepts of " ++ topic =
      'F' :: (toPy "undamental concepts of " ++ topic) := by
    rw [show toPy "Fundamental concepts of " =
      'F' :: toPy "undamental concepts of " from by decide]
    rfl
  obtain ⟨ys, hys⟩ := pyStrip_cons_not_space 'F' (by decide)
    (toPy "undamental concepts of " ++ topic)
  have hFstrip : pyStrip (toPy "Fundamental concepts of " ++ topic) = 'F' :: ys := by
    rw [hFsplit]
    exact hys
  have hFne : toPy "Fundamental concepts of " ++ topic ≠ [] := by
    rw [hFsplit]
    exact List.cons_ne_nil _ _
  have hopts : (create_fallback_mcq topic d).options =
      [pyStrip (toPy "Fundamental concepts of " ++ topic),
        toPy "Advanced theories in mathematics",
        toPy "Historical events in ancient Rome",
        toPy "Chemical properties of water"] := by
    show ((([toPy "Fundamental concepts of " ++ topic,
        toPy "Advanced theories in mathematics",
        toPy "Historical events in ancient Rome",
        toPy "Chemical properties of water"]).filter
          (fun o => decide (o ≠ []))).map pyStrip) = _
    rw [List.filter_cons, if_pos (by simp [hFne])]
    rw [show ([toPy "Advanced theories in mathematics",
        toPy "Historical events in ancient Rome",
        toPy "Chemical properties of water"]).filter (fun o => decide (o ≠ [])) =
      [toPy "Advanced theories in mathematics",
        toPy "Historical events in ancient Rome",
        toPy "Chemical properties of water"] from by decide]
    simp only [List.map_cons, List.map_nil]
    rw [show pyStrip (toPy "Advanced theories in mathematics") =
      toPy "Advanced theories in mathematics" from by decide]
    rw [show pyStrip (toPy "Historical events in ancient Rome") =
      toPy "Historical events in ancient Rome" from by decide]
    rw [show pyStrip (toPy "Chemical properties of water") =
      toPy "Chemical properties of water" from by decide]
  have hcorr : (create_fallback_mcq topic d).correct_answer =
      pyStrip (toPy "Fundamental concepts of " ++ topic) := rfl
  refine ⟨by rw [hopts]; rfl, ?_, ?_⟩
  · rw [hopts, hFstrip]
    have hA : toPy "Advanced theories in mathematics" =
        'A' :: toPy "dvanced theories in mathematics" := by decide
    have hH : toPy "Historical events in ancient Rome" =
        'H' :: toPy "istorical events in ancient Rome" := by decide
    have hC : toPy "Chemical properties of water" =
        'C' :: toPy "hemical properties of water" := by decide
    simp only [List.nodup_cons, List.mem_cons, List.mem_singleton,
      List.not_mem_nil, or_false, List.nodup_nil, and_true]
    refine ⟨?_, ?_, ?_⟩
    · push_neg
      refine ⟨?_, ?_, ?_⟩
      · rw [hA]; exact ne_of_head _ _ (by decide) _ _
      · rw [hH]; exact ne_of_head _ _ (by decide) _ _
      · rw [hC]; exact ne_of_head _ _ (by decide) _ _
    · push_neg
      exact ⟨by decide, by decide⟩
    · decide
  · rw [hcorr, hopts]
    exact List.mem_cons_self _ _

/-- For a valid topic, `generate_mcq` returns `ok` with at most 3 external
calls, whatever the external service does. -/
theorem generate_mcq_ok (topic difficulty : PyStr)
    (responses : Nat → AttemptOutcome) (h : pyStrip topic ≠ []) :
    ∃ q tr, generate_mcq topic difficulty responses = (Except.ok q, tr) ∧
      tr.externalCalls ≤ 3 ∧ tr.rateLimitCalls = 1 := by
  unfold generate_mcq
  rw [if_neg h]
  cases ha : attemptFrom responses 0 3 with
  | none =>
    exact ⟨create_fallback_mcq topic (canonDifficulty difficulty), _, rfl,
      by norm_num, rfl⟩
  | some pr =>
    obtain ⟨q, n⟩ := pr
    obtain ⟨hle, -⟩ := attemptFrom_success responses 0 3 q n ha
    exact ⟨q, _, rfl, by simpa using hle, rfl⟩

/-- For a valid topic with all three attempts failing, `generate_mcq`
returns exactly the fallback question after exactly 3 external calls. -/
theorem generate_mcq_fallback (topic difficulty : PyStr)
    (responses : Nat → AttemptOutcome) (h : pyStrip topic ≠ [])
    (hfail : ∀ i, i < 3 → tryAttempt (responses i) = none) :
    generate_mcq topic difficulty responses =
      (Except.ok (create_fallback_mcq topic (canonDifficulty difficulty)),
        { rateLimitCalls := 1, externalCalls := 3,
          prompt := some (mcqPrompt topic (canonDifficulty difficulty)) }) := by
  unfold generate_mcq
  rw [if_neg h, attemptFrom_all_fail responses (hfail 0 (by norm_num))
    (hfail 1 (by norm_num)) (hfail 2 (by norm_num))]

/-! ## Claim theorems: generator -/

/-- **C2** — confirmed.  Every question returned by `generate_mcq`, from the
validated external path or from the fallback, has exactly 4 pairwise
distinct options and a `correct_answer` that is case-sensitively equal to
one of them. -/
theorem claim_C2_mcq_invariants (topic difficulty : PyStr)
    (responses : Nat → AttemptOutcome) (q : MCQQuestion) (tr : GenTrace)
    (h : generate_mcq topic difficulty responses = (Except.ok q, tr)) :
    q.options.length = 4 ∧ q.options.Nodup ∧ q.correct_answer ∈ q.options := by
  unfold generate_mcq at h
  by_cases ht : pyStrip topic = []
  · rw [if_pos ht] at h
    simp at h
  · rw [if_neg ht] at h
    cases ha : attemptFrom responses 0 3 with
    | none =>
      rw [ha] at h
      simp only [Prod.mk.injEq, Except.ok.injEq] at h
      rw [← h.1]
      exact fallback_props topic (canonDifficulty difficulty)
    | some pr =>
      obtain ⟨q2, n⟩ := pr
      rw [ha] at h
      simp only [Prod.mk.injEq, Except.ok.injEq] at h
      obtain ⟨i, hi⟩ := (attemptFrom_success responses 0 3 q2 n ha).2
      rw [← h.1]
      cases ho : responses i with
      | failure =>
        rw [ho] at hi
        exact absurd hi (by simp [tryAttempt])
      | parsed rq ropts rc =>
        rw [ho] at hi
        exact validateParsed_props rq ropts rc q2 hi

/-- Concrete instance discharging the hypothesis of
`claim_C2_mcq_invariants` (forced external failure, topic "History"). -/
theorem claim_C2_witness :
    (create_fallback_mcq (toPy "History") (canonDifficulty (toPy "easy"))).options.length = 4 ∧
    (create_fallback_mcq (toPy "History") (canonDifficulty (toPy "easy"))).options.Nodup ∧
    (create_fallback_mcq (toPy "History") (canonDifficulty (toPy "easy"))).correct_answer ∈
      (create_fallback_mcq (toPy "History") (canonDifficulty (toPy "easy"))).options :=
  claim_C2_mcq_invariants (toPy "History") (toPy "easy")
    (fun _ => AttemptOutcome.failure)
    (create_fallback_mcq (toPy "History") (canonDifficulty (toPy "easy")))
    { rateLimitCalls := 1, externalCalls := 3,
      prompt := some (mcqPrompt (toPy "History") (canonDifficulty (toPy "easy"))) }
    rfl

/-- **C4** — confirmed.  For every non-empty topic `generate_mcq` never
raises: it returns `ok` after at most 3 attempts, and when all three
attempts fail it returns the deterministic fallback built from topic and
canonical difficulty, with exactly the 3 external calls already made. -/
theorem claim_C4_retry_and_fallback (topic difficulty : PyStr)
    (responses : Nat → AttemptOutcome) (h : pyStrip topic ≠ []) :
    (∃ q tr, generate_mcq topic difficulty responses = (Except.ok q, tr) ∧
      tr.externalCalls ≤ 3) ∧
    ((∀ i, i < 3 → tryAttempt (responses i) = none) →
      generate_mcq topic difficulty responses =
        (Except.ok (create_fallback_mcq topic (canonDifficulty difficulty)),
          { rateLimitCalls := 1, externalCalls := 3,
            prompt := some (mcqPrompt topic (canonDifficulty difficulty)) })) := by
  constructor
  · obtain ⟨q, tr, heq, hle, -⟩ := generate_mcq_ok topic difficulty responses h
    exact ⟨q, tr, heq, hle⟩
  · exact generate_mcq_fallback topic difficulty responses h

/-- Concrete instance discharging the hypotheses of
`claim_C4_retry_and_fallback`. -/
theorem claim_C4_witness :
    (∃ q tr, generate_mcq (toPy "History") (toPy "hard")
        (fun _ => AttemptOutcome.failure) = (Except.ok q, tr) ∧
      tr.externalCalls ≤ 3) ∧
    ((∀ i, i < 3 → tryAttempt ((fun _ => AttemptOutcome.failure : Nat → AttemptOutcome) i) = none) →
      generate_mcq (toPy "History") (toPy "hard") (fun _ => AttemptOutcome.failure) =
        (Except.ok (create_fallback_mcq (toPy "History") (canonDifficulty (toPy "hard"))),
          { rateLimitCalls := 1, externalCalls := 3,
            prompt := some (mcqPrompt (toPy "History") (canonDifficulty (toPy "hard"))) })) :=
  claim_C4_retry_and_fallback (toPy "History") (toPy "hard")
    (fun _ => AttemptOutcome.failure) (by decide)

/-- **C7** — confirmed.  An empty or whitespace-only topic is rejected with
the validation error `'Topic cannot be empty'` before the rate limiter runs
and before any external call. -/
theorem claim_C7_empty_topic_rejected (topic difficulty : PyStr)
    (responses : Nat → AttemptOutcome) (h : pyStrip topic = []) :
    generate_mcq topic difficulty responses =
      (Except.error (toPy "Topic cannot be empty"),
        { rateLimitCalls := 0, externalCalls := 0, prompt := none }) := by
  unfold generate_mcq
  rw [if_pos h]

/-- Concrete instance discharging the hypothesis of
`claim_C7_empty_topic_rejected` (whitespace-only topic). -/
theorem claim_C7_witness :
    generate_mcq (toPy "   ") (toPy "easy") (fun _ => AttemptOutcome.failure) =
      (Except.error (toPy "Topic cannot be empty"),
        { rateLimitCalls := 0, externalCalls := 0, prompt := none }) :=
  claim_C7_empty_topic_rejected (toPy "   ") (toPy "easy")
    (fun _ => AttemptOutcome.failure) (by decide)

/-- **C8** — confirmed.  Under forced external failure, two calls with the
same topic and difficulty return the identical fallback question (same
question text, same options in the same order, same correct answer),
regardless of how the two failing response streams differ. -/
theorem claim_C8_fallback_deterministic (topic difficulty : PyStr)
    (rs1 rs2 : Nat → AttemptOutcome) (h : pyStrip topic ≠ [])
    (hf1 : ∀ i, i < 3 → tryAttempt (rs1 i) = none)
    (hf2 : ∀ i, i < 3 → tryAttempt (rs2 i) = none) :
    ∃ q : MCQQuestion,
      (generate_mcq topic difficulty rs1).1 = Except.ok q ∧
      (generate_mcq topic difficulty rs2).1 = Except.ok q := by
  refine ⟨create_fallback_mcq topic (canonDifficulty difficulty), ?_, ?_⟩
  · rw [generate_mcq_fallback topic difficulty rs1 h hf1]
  · rw [generate_mcq_fallback topic difficulty rs2 h hf2]

/-- Concrete instance discharging the hypotheses of
`claim_C8_fallback_deterministic`. -/
theorem claim_C8_witness :
    ∃ q : MCQQuestion,
      (generate_mcq (toPy "History") (toPy "easy")
        (fun _ => AttemptOutcome.failure)).1 = Except.ok q ∧
      (generate_mcq (toPy "History") (toPy "easy")
        (fun _ => AttemptOutcome.parsed [] [] [])).1 = Except.ok q :=
  have hval : tryAttempt (AttemptOutcome.parsed [] [] []) = none := by decide
  claim_C8_fallback_deterministic (toPy "History") (toPy "easy")
    (fun _ => AttemptOutcome.failure) (fun _ => AttemptOutcome.parsed [] [] [])
    (by decide) (fun i _ => rfl) (fun i _ => hval)

/-- **C10** — confirmed.  A difficulty whose lowercase form is not one of
easy/medium/hard is silently coerced: the call behaves identically to one
with difficulty 'medium' (same result, same trace, same prompt) and, for a
non-empty topic, still succeeds without any validation error. -/
theorem claim_C10_unknown_difficulty_coerced (topic difficulty : PyStr)
    (responses : Nat → AttemptOutcome) (ht : pyStrip topic ≠ [])
    (hd : pyLower difficulty ≠ toPy "easy" ∧ pyLower difficulty ≠ toPy "medium" ∧
      pyLower difficulty ≠ toPy "hard") :
    generate_mcq topic difficulty responses =
      generate_mcq topic (toPy "medium") responses ∧
    ∃ q tr, generate_mcq topic difficulty responses = (Except.ok q, tr) := by
  have hc : canonDifficulty difficulty = toPy "medium" := by
    unfold canonDifficulty
    rw [if_neg]
    push_neg
    exact hd
  have hm : canonDifficulty (toPy "medium") = toPy "medium" := by decide
  constructor
  · unfold generate_mcq
    rw [hc, hm]
  · obtain ⟨q, tr, heq, -, -⟩ := generate_mcq_ok topic difficulty responses ht
    exact ⟨q, tr, heq⟩

/-- Concrete instance discharging the hypotheses of
`claim_C10_unknown_difficulty_coerced` (difficulty "EXTREME"). -/
theorem claim_C10_witness :
    (generate_mcq (toPy "History") (toPy "EXTREME") (fun _ => AttemptOutcome.failure) =
      generate_mcq (toPy "History") (toPy "medium") (fun _ => AttemptOutcome.failure)) ∧
    ∃ q tr, generate_mcq (toPy "History") (toPy "EXTREME")
      (fun _ => AttemptOutcome.failure) = (Except.ok q, tr) :=
  claim_C10_unknown_difficulty_coerced (toPy "History") (toPy "EXTREME")
    (fun _ => AttemptOutcome.failure) (by decide)
    ⟨by decide, by decide, by decide⟩

/-! ## Display-time shuffling lemmas -/

/-- One display iteration only grows the heap and never writes to an
existing cell: all pre-existing references keep their contents. -/
theorem displayOne_preserves (shuffle : Bool) (p : List PyStr → List PyStr)
    (h : Heap) (q : StoredQuestionRef) :
    h.length ≤ (displayOne shuffle p h q).1.length ∧
    ∀ r, r < h.length → ((displayOne shuffle p h q).1)[r]? = h[r]? := by
  cases shuffle with
  | false => exact ⟨Nat.le_refl _, fun r _ => rfl⟩
  | true =>
    constructor
    · show h.length ≤ (((h ++ [h.getD q.optionsRef []]).set h.length _).length)
      rw [List.length_set, List.length_append]
      omega
    · intro r hr
      show (((h ++ [h.getD q.optionsRef []]).set h.length _))[r]? = h[r]?
      rw [List.getElem?_set]
      rw [if_neg (by omega)]
      exact List.getElem?_append_left hr

/-- The whole display loop preserves every pre-existing heap cell. -/
theorem displayQuestions_preserves (shuffle : Bool)
    (perm : Nat → List PyStr → List PyStr) :
    ∀ (qs : List StoredQuestionRef) (h : Heap) (i : Nat),
      h.length ≤ (displayQuestions shuffle perm h i qs).1.length ∧
      ∀ r, r < h.length →
        ((displayQuestions shuffle perm h i qs).1)[r]? = h[r]? := by
  intro qs
  induction qs with
  | nil => exact fun h i => ⟨Nat.le_refl _, fun r _ => rfl⟩
  | cons q qs ih =>
    intro h i
    obtain ⟨hlen1, hget1⟩ := displayOne_preserves shuffle (perm i) h q
    obtain ⟨hlen2, hget2⟩ := ih (displayOne shuffle (perm i) h q).1 (i + 1)
    constructor
    · show h.length ≤ (displayQuestions shuffle perm
        (displayOne shuffle (perm i) h q).1 (i + 1) qs).1.length
      omega
    · intro r hr
      show (displayQuestions shuffle perm
        (displayOne shuffle (perm i) h q).1 (i + 1) qs).1[r]? = h[r]?
      rw [hget2 r (by omega), hget1 r hr]

/-! ## Claim theorem: display shuffling -/

/-- **C9** — confirmed.  Rendering a quiz for display shuffles only freshly
copied option lists: every option-list cell that existed before the display
operation (in particular every cell referenced by the stored canonical
questions used for scoring) is unchanged by it, whatever permutations
`random.shuffle` applies. -/
theorem claim_C9_display_preserves_stored (shuffle : Bool)
    (perm : Nat → List PyStr → List PyStr) (h : Heap)
    (qs : List StoredQuestionRef) (i r : Nat) (hr : r < h.length) :
    ((displayQuestions shuffle perm h i qs).1)[r]? = h[r]? :=
  (displayQuestions_preserves shuffle perm qs h i).2 r hr

/-- Concrete instance discharging the hypothesis of
`claim_C9_display_preserves_stored`: one stored question with options
[A, B], shuffling enabled, a permutation that reverses the copy. -/
theorem claim_C9_witness :
    ((displayQuestions true (fun _ l => l.reverse)
      [[toPy "A", toPy "B"]]
      0
      [{ question := toPy "q", optionsRef := 0, correct_answer := toPy "A" }]).1)[0]? =
      some [toPy "A", toPy "B"] := by
  have hpres := claim_C9_display_preserves_stored true (fun _ l => l.reverse)
    [[toPy "A", toPy "B"]]
    [{ question := toPy "q", optionsRef := 0, correct_answer := toPy "A" }]
    0 0 (by decide)
  rw [hpres]
  rfl
